import Mathlib

/-!
Shallow embedding of the `grouped-ordering` crate.

The proc macro `grouped_ordering!(Name, [L1, ..., Ln])` generates, per
"kind":
  * a closed label enum with `n` variants (modelled here as a type `G`
    with decidable equality, `Fintype.card G = n`),
  * a struct `{ groups: [Group; n], index_lookup: HashMap<Group, usize> }`,
  * `compare(a, b) = index_lookup[a].cmp(&index_lookup[b])`,
  * `TryFrom<[Group; n]>` building `index_lookup` by enumerating the
    array (insertion order defines rank) and failing when the map built
    has fewer than `n` entries,
  * `Default` delegating to `TryFrom` on the declaration-order array,
  * `serde::Deserialize` deserializing a `[Group; n]` array and then
    delegating to `TryFrom`.
The runtime crate adds `Vec::sort_by_grouped_ordering`, a stable sort by
the instance's comparator.

The `HashMap<Group, usize>` is modelled as an association list where
insertion overwrites the value of an existing key; its observable
behaviour (lookup, length) matches the hash map's.
-/

set_option linter.unusedSectionVars false

namespace GroupedOrderingModel

variable {G : Type} [DecidableEq G]

/-- Model of `HashMap::insert`: replace the value of an existing key,
otherwise add the pair. -/
def insertPair : List (G × Nat) → G → Nat → List (G × Nat)
  | [], k, v => [(k, v)]
  | p :: rest, k, v =>
    if p.1 = k then (k, v) :: rest else p :: insertPair rest k v

/-- Model of `HashMap::get` (and of the `Index` operator used by
`compare`, which panics when the key is absent — absence is `none`
here). -/
def lookupKey : List (G × Nat) → G → Option Nat
  | [], _ => none
  | p :: rest, g => if p.1 = g then some p.2 else lookupKey rest g

/-- The keys of the modelled hash map. -/
def keys (m : List (G × Nat)) : List G := m.map Prod.fst

/-- Sequential insertion of `(group, index)` pairs with increasing
indices starting at `i`, the model of
`groups.into_iter().enumerate().map(|(index, group)| (group, index)).collect()`
run from an intermediate map `m`. -/
def buildLookup (m : List (G × Nat)) (i : Nat) : List G → List (G × Nat)
  | [] => m
  | g :: rest => buildLookup (insertPair m g i) (i + 1) rest

/-- The `index_lookup` map built by the generated `try_from`. -/
def collectIndexLookup (groups : List G) : List (G × Nat) :=
  buildLookup [] 0 groups

/-- The generated ordering-instance struct:
`{ groups: [Group; n], index_lookup: HashMap<Group, usize> }`. -/
structure GroupedOrderingInstance (G : Type) where
  groups : List G
  index_lookup : List (G × Nat)
deriving DecidableEq

/-- The generated `TryFrom<[Group; n]>::try_from`: build `index_lookup`
by enumeration, fail with `"Found duplicate groups"` when the map has
fewer than `n` entries, else return the instance.  (In Rust the array
type forces `groups.length = n`; theorems carry that as a hypothesis.) -/
def tryFrom (n : Nat) (groups : List G) :
    Except String (GroupedOrderingInstance G) :=
  let index_lookup := collectIndexLookup groups
  if index_lookup.length < n then
    Except.error "Found duplicate groups"
  else
    Except.ok { groups := groups, index_lookup := index_lookup }

/-- Lookup in an instance's rank table (`self.index_lookup.get(g)`). -/
def lookupRank (o : GroupedOrderingInstance G) (g : G) : Option Nat :=
  lookupKey o.index_lookup g

/-- The rank read by `self.index_lookup[g]`.  The Rust `Index` operator
panics when the key is absent; the model defaults to `0` there, and the
theorems establish the key is present for every validly constructed
instance, so the default is never reached. -/
def rankD (o : GroupedOrderingInstance G) (g : G) : Nat :=
  (lookupRank o g).getD 0

/-- Panic-aware model of the generated
`compare(a, b) = self.index_lookup[a].cmp(&self.index_lookup[b])`:
`none` models the panic on a missing key. -/
def compareOpt (o : GroupedOrderingInstance G) (a b : G) : Option Ordering :=
  match lookupRank o a, lookupRank o b with
  | some ra, some rb => some (compare ra rb)
  | _, _ => none

/-- Total version of the generated `compare`, agreeing with
`compareOpt` whenever both keys are present. -/
def compareD (o : GroupedOrderingInstance G) (a b : G) : Ordering :=
  compare (rankD o a) (rankD o b)

/-- The generated `Default::default()`:
`Self::try_from([G1, ..., Gn]).unwrap()` on the declaration-order
array.  `kind` is the declaration-order label list, so `n = kind.length`. -/
def defaultInstance (kind : List G) :
    Except String (GroupedOrderingInstance G) :=
  tryFrom kind.length kind

/-- Model of `Vec::sort_by_grouped_ordering`: Rust's stable
`sort_by(|a, b| compare(a.map_to_grouped_ordering(), b.map_to_grouped_ordering()))`,
i.e. a stable sort by the comparator, modelled as merge sort with
`le a b ↔ compare a b ≠ Greater`. -/
def sortByGroupedOrdering {α : Type} (o : GroupedOrderingInstance G)
    (mapTo : α → G) (items : List α) : List α :=
  items.mergeSort fun a b =>
    decide (compareD o (mapTo a) (mapTo b) ≠ Ordering.gt)

/-- The error outcomes of the generated `Deserialize` impl: serde's
invalid-length error on a sequence of the wrong cardinality, serde's
unknown-variant error on a name outside the label enum, and the
`D::Error::custom` message produced when `try_from` rejects the parsed
array. -/
inductive DeserializeError where
  | wrongCardinality : DeserializeError
  | unknownLabel : DeserializeError
  | custom : String → DeserializeError
deriving DecidableEq

/-- Model of `<[Group; n] as serde::Deserialize>::deserialize`: read
exactly `n` sequence elements, parsing each name into a label
(unknown-variant error when a name is outside the enum), erroring on a
sequence that ends early or has trailing elements. -/
def deserializeArray (parseName : String → Option G) :
    Nat → List String → Except DeserializeError (List G)
  | 0, [] => Except.ok []
  | 0, _ :: _ => Except.error DeserializeError.wrongCardinality
  | _ + 1, [] => Except.error DeserializeError.wrongCardinality
  | n + 1, s :: rest =>
    match parseName s with
    | none => Except.error DeserializeError.unknownLabel
    | some g => (deserializeArray parseName n rest).map (fun l => g :: l)

/-- The generated `serde::Deserialize::deserialize`: deserialize a
`[Group; n]` array, then
`Self::try_from(array).map_err(|_| D::Error::custom("Expected all variants"))`. -/
def deserialize (parseName : String → Option G) (n : Nat)
    (names : List String) : Except DeserializeError (GroupedOrderingInstance G) :=
  match deserializeArray parseName n names with
  | Except.error e => Except.error e
  | Except.ok array =>
    match tryFrom n array with
    | Except.error _ => Except.error (DeserializeError.custom "Expected all variants")
    | Except.ok o => Except.ok o

/-- Modelled from the spec: the index-by-label accessor of the query
surface ("index by label → integer rank").  The generated `Index`
impls themselves are not among the sources; only their call sites
(the crate's tests) are, so the accessor is modelled as the lookup in
the instance's rank table, the only rank data the struct holds. -/
def indexByGroup (o : GroupedOrderingInstance G) (g : G) : Nat :=
  (lookupRank o g).getD 0

/-- Modelled from the spec: the index-by-rank accessor of the query
surface ("index by integer rank (0..n-1) → label"), reading the stored
`groups` array at the given position.  Out-of-range ranks are caller
errors, modelled as `none`. -/
def indexByRank (o : GroupedOrderingInstance G) (i : Nat) : Option G :=
  o.groups.get? i

/-- A concrete kind: `grouped_ordering!(GroupedOrderingFoo, [A, B, C])`,
the kind used throughout the crate's tests. -/
inductive Group3 where
  | A : Group3
  | B : Group3
  | C : Group3
deriving DecidableEq

instance : Fintype Group3 :=
  Fintype.ofList [Group3.A, Group3.B, Group3.C] fun g => by cases g <;> simp

/-- Kebab-case serde names of `Group3`'s variants
(`#[serde(rename_all = "kebab-case")]`). -/
def group3Name : Group3 → String
  | Group3.A => "a"
  | Group3.B => "b"
  | Group3.C => "c"

/-- Serde's deserialization of a `Group3` variant from its kebab-case
name. -/
def parseGroup3 (s : String) : Option Group3 :=
  if s = "a" then some Group3.A
  else if s = "b" then some Group3.B
  else if s = "c" then some Group3.C
  else none

/-- The item-to-label mapping of the crate's tests:
`value % 3 → {0: A, 1: B, 2: C}`. -/
def mapU32ToGroup3 (v : Nat) : Group3 :=
  if v % 3 = 0 then Group3.A
  else if v % 3 = 1 then Group3.B
  else Group3.C

/-! Basic lemmas about the hash-map model. -/

theorem lookupKey_insertPair (m : List (G × Nat)) (k : G) (v : Nat) (g : G) :
    lookupKey (insertPair m k v) g = if g = k then some v else lookupKey m g := by
  induction m with
  | nil =>
    by_cases h : g = k <;> simp [insertPair, lookupKey, h, Ne.symm]
  | cons p rest ih =>
    by_cases hpk : p.1 = k
    · by_cases hg : g = k <;> simp [insertPair, lookupKey, hpk, hg, Ne.symm]
    · by_cases hpg : p.1 = g
      · have hg : g ≠ k := fun e => hpk (hpg.trans e)
        simp [insertPair, lookupKey, hpk, hpg, hg]
      · simp [insertPair, lookupKey, hpk, hpg, ih]

theorem mem_keys_insertPair (m : List (G × Nat)) (k : G) (v : Nat) (a : G) :
    a ∈ keys (insertPair m k v) ↔ a ∈ keys m ∨ a = k := by
  induction m with
  | nil => simp [insertPair, keys]
  | cons p rest ih =>
    by_cases hpk : p.1 = k
    · subst hpk
      simp [insertPair, keys]
      tauto
    · simp only [insertPair, if_neg hpk, keys, List.map_cons, List.mem_cons] at *
      tauto

theorem nodup_keys_insertPair (m : List (G × Nat)) (k : G) (v : Nat)
    (h : (keys m).Nodup) : (keys (insertPair m k v)).Nodup := by
  induction m with
  | nil => simp [insertPair, keys]
  | cons p rest ih =>
    simp only [keys, List.map_cons, List.nodup_cons] at h
    by_cases hpk : p.1 = k
    · subst hpk
      simpa [insertPair, keys] using h
    · have h2 := ih h.2
      simp only [insertPair, if_neg hpk, keys, List.map_cons, List.nodup_cons]
      refine ⟨?_, h2⟩
      intro habs
      rcases (mem_keys_insertPair rest k v p.1).mp habs with hm | he
      · exact h.1 hm
      · exact hpk he

theorem lookupKey_buildLookup_not_mem (rest : List G) (m : List (G × Nat))
    (i : Nat) (g : G) (h : g ∉ rest) :
    lookupKey (buildLookup m i rest) g = lookupKey m g := by
  induction rest generalizing m i with
  | nil => rfl
  | cons a rest ih =>
    have hga : g ≠ a := fun e => h (by simp [e])
    have hrest : g ∉ rest := fun hm => h (List.mem_cons_of_mem _ hm)
    rw [buildLookup, ih _ _ hrest, lookupKey_insertPair, if_neg hga]

theorem lookupKey_buildLookup_mem (rest : List G) (m : List (G × Nat))
    (i : Nat) (g : G) (hn : rest.Nodup) (h : g ∈ rest) :
    lookupKey (buildLookup m i rest) g = some (i + rest.indexOf g) := by
  induction rest generalizing m i with
  | nil => cases h
  | cons a rest ih =>
    rcases List.nodup_cons.mp hn with ⟨hna, hnr⟩
    rcases List.mem_cons.mp h with hga | hmem
    · subst hga
      rw [buildLookup, lookupKey_buildLookup_not_mem rest _ _ _ hna,
        lookupKey_insertPair, if_pos rfl, List.indexOf_cons_self]
      simp
    · have hga : g ≠ a := fun e => hna (e ▸ hmem)
      rw [buildLookup, ih _ _ hnr hmem, List.indexOf_cons_ne rest (Ne.symm hga)]
      congr 1
      omega

theorem mem_keys_buildLookup (rest : List G) (m : List (G × Nat)) (i : Nat) (a : G) :
    a ∈ keys (buildLookup m i rest) ↔ a ∈ keys m ∨ a ∈ rest := by
  induction rest generalizing m i with
  | nil => simp [buildLookup]
  | cons b rest ih =>
    rw [buildLookup, ih]
    rw [mem_keys_insertPair]
    simp only [List.mem_cons]
    tauto

theorem nodup_keys_buildLookup (rest : List G) (m : List (G × Nat)) (i : Nat)
    (h : (keys m).Nodup) : (keys (buildLookup m i rest)).Nodup := by
  induction rest generalizing m i with
  | nil => exact h
  | cons b rest ih => exact ih _ _ (nodup_keys_insertPair m b i h)

theorem keys_collect_nodup (groups : List G) :
    (keys (collectIndexLookup groups)).Nodup :=
  nodup_keys_buildLookup groups [] 0 (by simp [keys])

theorem mem_keys_collect (groups : List G) (a : G) :
    a ∈ keys (collectIndexLookup groups) ↔ a ∈ groups := by
  rw [collectIndexLookup, mem_keys_buildLookup]
  simp [keys]

theorem length_collectIndexLookup (groups : List G) :
    (collectIndexLookup groups).length = groups.dedup.length := by
  have h1 : (keys (collectIndexLookup groups)).length
      = (collectIndexLookup groups).length := List.length_map _ _
  rw [← h1]
  have h2 : (keys (collectIndexLookup groups)).toFinset = groups.toFinset := by
    ext a
    simp [List.mem_toFinset, mem_keys_collect]
  calc (keys (collectIndexLookup groups)).length
      = (keys (collectIndexLookup groups)).dedup.length := by
        rw [List.dedup_eq_self.mpr (keys_collect_nodup groups)]
    _ = (keys (collectIndexLookup groups)).toFinset.card :=
        (List.card_toFinset _).symm
    _ = groups.toFinset.card := by rw [h2]
    _ = groups.dedup.length := List.card_toFinset _

theorem lookupKey_collect_of_nodup (groups : List G) (h2 : groups.Nodup)
    (g : G) (hg : g ∈ groups) :
    lookupKey (collectIndexLookup groups) g = some (groups.indexOf g) := by
  rw [collectIndexLookup, lookupKey_buildLookup_mem groups [] 0 g h2 hg]
  simp

/-! Lemmas about the validating constructor. -/

theorem tryFrom_ok_of_nodup (groups : List G) (n : Nat)
    (h1 : groups.length = n) (h2 : groups.Nodup) :
    tryFrom n groups = Except.ok ⟨groups, collectIndexLookup groups⟩ := by
  have hlen : (collectIndexLookup groups).length = n := by
    rw [length_collectIndexLookup, List.dedup_eq_self.mpr h2, h1]
  simp [tryFrom, hlen]

theorem tryFrom_error_of_not_nodup (groups : List G) (n : Nat)
    (h1 : groups.length = n) (h2 : ¬ groups.Nodup) :
    tryFrom n groups = Except.error "Found duplicate groups" := by
  have hlt : (collectIndexLookup groups).length < n := by
    rw [length_collectIndexLookup]
    have hsub := List.dedup_sublist groups
    have hle : groups.dedup.length ≤ groups.length := hsub.length_le
    have hne : groups.dedup.length ≠ groups.length := by
      intro e
      exact h2 (List.dedup_eq_self.mp (hsub.eq_of_length e))
    omega
  simp [tryFrom, hlt]

theorem nodup_of_tryFrom_ok (groups : List G) (n : Nat)
    (o : GroupedOrderingInstance G) (h1 : groups.length = n)
    (h2 : tryFrom n groups = Except.ok o) : groups.Nodup := by
  by_contra h
  rw [tryFrom_error_of_not_nodup groups n h1 h] at h2
  exact Except.noConfusion h2

theorem tryFrom_ok_elim (groups : List G) (n : Nat)
    (o : GroupedOrderingInstance G) (h : tryFrom n groups = Except.ok o) :
    o.groups = groups ∧ o.index_lookup = collectIndexLookup groups := by
  by_cases hlt : (collectIndexLookup groups).length < n
  · simp [tryFrom, hlt] at h
  · simp [tryFrom, hlt] at h
    exact ⟨by rw [← h], by rw [← h]⟩

theorem lookupRank_of_tryFrom_ok (groups : List G) (n : Nat)
    (o : GroupedOrderingInstance G) (h1 : groups.length = n)
    (h2 : tryFrom n groups = Except.ok o) (g : G) (hg : g ∈ groups) :
    lookupRank o g = some (groups.indexOf g) := by
  obtain ⟨hgr, hil⟩ := tryFrom_ok_elim groups n o h2
  rw [lookupRank, hil]
  exact lookupKey_collect_of_nodup groups (nodup_of_tryFrom_ok groups n o h1 h2) g hg

theorem mem_of_length_card [Fintype G] (groups : List G)
    (h1 : groups.length = Fintype.card G) (h2 : groups.Nodup) (g : G) :
    g ∈ groups := by
  have hcard : groups.toFinset.card = Fintype.card G := by
    rw [List.card_toFinset, List.dedup_eq_self.mpr h2, h1]
  have huniv := Finset.eq_univ_of_card groups.toFinset hcard
  have hmem : g ∈ groups.toFinset := by
    rw [huniv]
    exact Finset.mem_univ g
  simpa [List.mem_toFinset] using hmem

/-! Lemmas about deserialization of the label array. -/

theorem deserializeArray_wrong_length (parseName : String → Option G)
    (names : List String) (n : Nat)
    (h1 : ∀ s ∈ names, (parseName s).isSome) (h2 : names.length ≠ n) :
    deserializeArray parseName n names
      = Except.error DeserializeError.wrongCardinality := by
  induction names generalizing n with
  | nil =>
    cases n with
    | zero => simp at h2
    | succ n => rfl
  | cons s rest ih =>
    cases n with
    | zero => rfl
    | succ n =>
      obtain ⟨g, hg⟩ := Option.isSome_iff_exists.mp (h1 s (by simp))
      have hrest : rest.length ≠ n := by
        simp only [List.length_cons] at h2
        omega
      rw [deserializeArray, hg,
        ih n (fun t ht => h1 t (List.mem_cons_of_mem _ ht)) hrest]
      rfl

theorem deserializeArray_unknown (parseName : String → Option G)
    (names : List String) (n : Nat)
    (h1 : names.length ≤ n) (h2 : ∃ s ∈ names, parseName s = none) :
    deserializeArray parseName n names
      = Except.error DeserializeError.unknownLabel := by
  induction names generalizing n with
  | nil => simp at h2
  | cons s rest ih =>
    cases n with
    | zero => simp at h1
    | succ n =>
      have hrest : rest.length ≤ n := by
        simp only [List.length_cons] at h1
        omega
      cases hp : parseName s with
      | none => rw [deserializeArray, hp]
      | some g =>
        have hex : ∃ t ∈ rest, parseName t = none := by
          rcases h2 with ⟨t, ht, hnone⟩
          rcases List.mem_cons.mp ht with rfl | htr
          · rw [hp] at hnone
            exact Option.noConfusion hnone
          · exact ⟨t, htr, hnone⟩
        rw [deserializeArray, hp, ih n hrest hex]
        rfl

theorem deserializeArray_map_names (parseName : String → Option G)
    (nameOf : G → String) (h0 : ∀ g : G, parseName (nameOf g) = some g)
    (labels : List G) (n : Nat) (h1 : labels.length = n) :
    deserializeArray parseName n (labels.map nameOf) = Except.ok labels := by
  induction labels generalizing n with
  | nil =>
    cases n with
    | zero => rfl
    | succ n => simp at h1
  | cons g rest ih =>
    cases n with
    | zero => simp at h1
    | succ n =>
      have hrest : rest.length = n := by
        simp only [List.length_cons] at h1
        omega
      rw [List.map_cons, deserializeArray, h0 g, ih n hrest]
      rfl

/-! Lemmas about ranks and the comparator on a validly constructed
instance. -/

theorem rankD_of_tryFrom_ok (groups : List G) (n : Nat)
    (o : GroupedOrderingInstance G) (h1 : groups.length = n)
    (h2 : tryFrom n groups = Except.ok o) (g : G) (hg : g ∈ groups) :
    rankD o g = groups.indexOf g := by
  rw [rankD, lookupRank_of_tryFrom_ok groups n o h1 h2 g hg]
  rfl

theorem compareOpt_eq_compareD (o : GroupedOrderingInstance G) (a b : G)
    (ha : (lookupRank o a).isSome) (hb : (lookupRank o b).isSome) :
    compareOpt o a b = some (compareD o a b) := by
  obtain ⟨ra, hra⟩ := Option.isSome_iff_exists.mp ha
  obtain ⟨rb, hrb⟩ := Option.isSome_iff_exists.mp hb
  rw [compareOpt, compareD, hra, hrb, rankD, rankD, hra, hrb]
  rfl

/-! Claim theorems. -/

/-- C1: for every kind with label set of size `n` and every duplicate-free
sequence σ of that set, `try_from` succeeds; the resulting instance stores
exactly σ in `groups`, its rank table maps each label `σ[i]` to `i`, and
rank and label-at are mutually inverse bijections between the kind's
labels and `0..n-1`. -/
theorem c1_tryFrom_permutation_bijection [Fintype G] (groups : List G)
    (h1 : groups.length = Fintype.card G) (h2 : groups.Nodup) :
    ∃ o : GroupedOrderingInstance G,
      tryFrom (Fintype.card G) groups = Except.ok o ∧
      o.groups = groups ∧
      (∀ i : Fin groups.length, lookupRank o (groups.get i) = some i.val) ∧
      (∀ g : G, ∃ hlt : groups.indexOf g < groups.length,
        lookupRank o g = some (groups.indexOf g) ∧
        groups.get ⟨groups.indexOf g, hlt⟩ = g) := by
  have hok := tryFrom_ok_of_nodup groups (Fintype.card G) h1 h2
  refine ⟨⟨groups, collectIndexLookup groups⟩, hok, rfl, ?_, ?_⟩
  · intro i
    have hmem : groups.get i ∈ groups := groups.get_mem i.1 i.2
    show lookupKey (collectIndexLookup groups) (groups.get i) = some i.val
    rw [lookupKey_collect_of_nodup groups h2 _ hmem, List.get_indexOf h2 i]
  · intro g
    have hg : g ∈ groups := mem_of_length_card groups h1 h2 g
    have hlt : groups.indexOf g < groups.length := List.indexOf_lt_length.mpr hg
    refine ⟨hlt, ?_, List.indexOf_get hlt⟩
    show lookupKey (collectIndexLookup groups) g = some (groups.indexOf g)
    exact lookupKey_collect_of_nodup groups h2 g hg

theorem c1_witness :
    (([Group3.C, Group3.A, Group3.B] : List Group3).length = Fintype.card Group3 ∧
      ([Group3.C, Group3.A, Group3.B] : List Group3).Nodup) ∧
    (∃ o : GroupedOrderingInstance Group3,
      tryFrom (Fintype.card Group3) [Group3.C, Group3.A, Group3.B] = Except.ok o ∧
      o.groups = [Group3.C, Group3.A, Group3.B] ∧
      (∀ i : Fin ([Group3.C, Group3.A, Group3.B] : List Group3).length,
        lookupRank o (([Group3.C, Group3.A, Group3.B] : List Group3).get i) = some i.val) ∧
      (∀ g : Group3, ∃ hlt : ([Group3.C, Group3.A, Group3.B] : List Group3).indexOf g
          < ([Group3.C, Group3.A, Group3.B] : List Group3).length,
        lookupRank o g = some (([Group3.C, Group3.A, Group3.B] : List Group3).indexOf g) ∧
        ([Group3.C, Group3.A, Group3.B] : List Group3).get
          ⟨([Group3.C, Group3.A, Group3.B] : List Group3).indexOf g, hlt⟩ = g)) :=
  ⟨⟨by decide, by decide⟩,
    c1_tryFrom_permutation_bijection [Group3.C, Group3.A, Group3.B] (by decide) (by decide)⟩

/-- C3: on a successfully constructed instance, `compare` equals
`cmp(rank a, rank b)` and is consistent with a strict total order over
the full label set: reflexively `eq`, mutually opposite under swapping
the arguments, transitive, defined for every pair of labels, and `eq`
only on equal labels. -/
theorem c3_compare_strict_total_order [Fintype G] (groups : List G)
    (o : GroupedOrderingInstance G)
    (h1 : groups.length = Fintype.card G)
    (h2 : tryFrom (Fintype.card G) groups = Except.ok o) :
    (∀ a b : G, compareOpt o a b = some (compare (rankD o a) (rankD o b))) ∧
    (∀ a : G, compareD o a a = Ordering.eq) ∧
    (∀ a b : G, compareD o b a = (compareD o a b).swap) ∧
    (∀ a b : G, compareD o a b = Ordering.eq → a = b) ∧
    (∀ a b c : G, compareD o a b = Ordering.lt → compareD o b c = Ordering.lt →
      compareD o a c = Ordering.lt) := by
  have hn := nodup_of_tryFrom_ok groups _ o h1 h2
  have hmem : ∀ g : G, g ∈ groups := mem_of_length_card groups h1 hn
  have hsome : ∀ g : G, (lookupRank o g).isSome := by
    intro g
    rw [lookupRank_of_tryFrom_ok groups _ o h1 h2 g (hmem g)]
    rfl
  have hrank : ∀ g : G, rankD o g = groups.indexOf g := fun g =>
    rankD_of_tryFrom_ok groups _ o h1 h2 g (hmem g)
  refine ⟨fun a b => compareOpt_eq_compareD o a b (hsome a) (hsome b),
    ?_, ?_, ?_, ?_⟩
  · intro a
    exact Nat.compare_eq_eq.mpr rfl
  · intro a b
    exact (Nat.compare_swap (rankD o a) (rankD o b)).symm
  · intro a b hab
    have heq : rankD o a = rankD o b := Nat.compare_eq_eq.mp hab
    rw [hrank a, hrank b] at heq
    exact (List.indexOf_inj (hmem a) (hmem b)).mp heq
  · intro a b c hab hbc
    have h3 : rankD o a < rankD o b := Nat.compare_eq_lt.mp hab
    have h4 : rankD o b < rankD o c := Nat.compare_eq_lt.mp hbc
    exact Nat.compare_eq_lt.mpr (Nat.lt_trans h3 h4)

theorem c3_witness :
    (([Group3.B, Group3.A, Group3.C] : List Group3).length = Fintype.card Group3 ∧
      tryFrom (Fintype.card Group3) [Group3.B, Group3.A, Group3.C]
        = Except.ok ⟨[Group3.B, Group3.A, Group3.C],
            collectIndexLookup [Group3.B, Group3.A, Group3.C]⟩) ∧
    ((∀ a b : Group3,
        compareOpt ⟨[Group3.B, Group3.A, Group3.C],
            collectIndexLookup [Group3.B, Group3.A, Group3.C]⟩ a b
          = some (compare
              (rankD ⟨[Group3.B, Group3.A, Group3.C],
                collectIndexLookup [Group3.B, Group3.A, Group3.C]⟩ a)
              (rankD ⟨[Group3.B, Group3.A, Group3.C],
                collectIndexLookup [Group3.B, Group3.A, Group3.C]⟩ b))) ∧
      (∀ a : Group3,
        compareD ⟨[Group3.B, Group3.A, Group3.C],
            collectIndexLookup [Group3.B, Group3.A, Group3.C]⟩ a a = Ordering.eq) ∧
      (∀ a b : Group3,
        compareD ⟨[Group3.B, Group3.A, Group3.C],
            collectIndexLookup [Group3.B, Group3.A, Group3.C]⟩ b a
          = (compareD ⟨[Group3.B, Group3.A, Group3.C],
              collectIndexLookup [Group3.B, Group3.A, Group3.C]⟩ a b).swap) ∧
      (∀ a b : Group3,
        compareD ⟨[Group3.B, Group3.A, Group3.C],
            collectIndexLookup [Group3.B, Group3.A, Group3.C]⟩ a b = Ordering.eq → a = b) ∧
      (∀ a b c : Group3,
        compareD ⟨[Group3.B, Group3.A, Group3.C],
            collectIndexLookup [Group3.B, Group3.A, Group3.C]⟩ a b = Ordering.lt →
        compareD ⟨[Group3.B, Group3.A, Group3.C],
            collectIndexLookup [Group3.B, Group3.A, Group3.C]⟩ b c = Ordering.lt →
        compareD ⟨[Group3.B, Group3.A, Group3.C],
            collectIndexLookup [Group3.B, Group3.A, Group3.C]⟩ a c = Ordering.lt)) :=
  ⟨⟨by decide, rfl⟩,
    c3_compare_strict_total_order [Group3.B, Group3.A, Group3.C]
      ⟨[Group3.B, Group3.A, Group3.C], collectIndexLookup [Group3.B, Group3.A, Group3.C]⟩
      (by decide) rfl⟩

/-- C5: for every kind of size `n`, constructing from an `n`-element
sequence with a repeated label fails with the duplicate-groups error
(never yields an instance), and the rank table built by enumeration has
size strictly less than `n`. -/
theorem c5_duplicate_labels_rejected (groups : List G) (n : Nat)
    (h1 : groups.length = n) (h2 : ¬ groups.Nodup) :
    tryFrom n groups = Except.error "Found duplicate groups" ∧
    (collectIndexLookup groups).length < n := by
  refine ⟨tryFrom_error_of_not_nodup groups n h1 h2, ?_⟩
  rw [length_collectIndexLookup]
  have hsub := List.dedup_sublist groups
  have hle := hsub.length_le
  have hne : groups.dedup.length ≠ groups.length := by
    intro e
    exact h2 (List.dedup_eq_self.mp (hsub.eq_of_length e))
  omega

theorem c5_witness :
    (([Group3.A, Group3.B, Group3.B] : List Group3).length = 3 ∧
      ¬ ([Group3.A, Group3.B, Group3.B] : List Group3).Nodup) ∧
    (tryFrom 3 [Group3.A, Group3.B, Group3.B]
        = Except.error "Found duplicate groups" ∧
      (collectIndexLookup [Group3.A, Group3.B, Group3.B]).length < 3) :=
  ⟨⟨by decide, by decide⟩,
    c5_duplicate_labels_rejected [Group3.A, Group3.B, Group3.B] 3 (by decide) (by decide)⟩

/-- C8: default construction equals the validating constructor applied to
the declaration-order permutation — same `groups` array and the same rank
for every label — and is deterministic: every successful default
construction yields that same instance. -/
theorem c8_default_equals_identity_construction (kind : List G)
    (h : kind.Nodup) :
    ∃ o : GroupedOrderingInstance G,
      defaultInstance kind = Except.ok o ∧
      tryFrom kind.length kind = Except.ok o ∧
      o.groups = kind ∧
      (∀ g ∈ kind, lookupRank o g = some (kind.indexOf g)) ∧
      (∀ o2 : GroupedOrderingInstance G,
        defaultInstance kind = Except.ok o2 → o2 = o) := by
  have hok := tryFrom_ok_of_nodup kind kind.length rfl h
  refine ⟨⟨kind, collectIndexLookup kind⟩, hok, hok, rfl, ?_, ?_⟩
  · intro g hg
    show lookupKey (collectIndexLookup kind) g = some (kind.indexOf g)
    exact lookupKey_collect_of_nodup kind h g hg
  · intro o2 h2
    simp only [defaultInstance] at h2
    rw [hok] at h2
    injection h2 with h3
    exact h3.symm

theorem c8_witness :
    ([Group3.A, Group3.B, Group3.C] : List Group3).Nodup ∧
    (∃ o : GroupedOrderingInstance Group3,
      defaultInstance [Group3.A, Group3.B, Group3.C] = Except.ok o ∧
      tryFrom ([Group3.A, Group3.B, Group3.C] : List Group3).length
        [Group3.A, Group3.B, Group3.C] = Except.ok o ∧
      o.groups = [Group3.A, Group3.B, Group3.C] ∧
      (∀ g ∈ ([Group3.A, Group3.B, Group3.C] : List Group3),
        lookupRank o g = some (([Group3.A, Group3.B, Group3.C] : List Group3).indexOf g)) ∧
      (∀ o2 : GroupedOrderingInstance Group3,
        defaultInstance [Group3.A, Group3.B, Group3.C] = Except.ok o2 → o2 = o)) :=
  ⟨by decide,
    c8_default_equals_identity_construction [Group3.A, Group3.B, Group3.C] (by decide)⟩

/-- C10: on every validly constructed instance the comparator never
panics — the rank-table lookup finds a key for every label of the kind,
so `compare` is defined (is `some`) for every pair of labels. -/
theorem c10_compare_never_panics [Fintype G] (groups : List G)
    (o : GroupedOrderingInstance G)
    (h1 : groups.length = Fintype.card G)
    (h2 : tryFrom (Fintype.card G) groups = Except.ok o) :
    (∀ g : G, (lookupRank o g).isSome) ∧
    (∀ a b : G, (compareOpt o a b).isSome) := by
  have hn := nodup_of_tryFrom_ok groups _ o h1 h2
  have hsome : ∀ g : G, (lookupRank o g).isSome := by
    intro g
    rw [lookupRank_of_tryFrom_ok groups _ o h1 h2 g
      (mem_of_length_card groups h1 hn g)]
    rfl
  refine ⟨hsome, fun a b => ?_⟩
  rw [compareOpt_eq_compareD o a b (hsome a) (hsome b)]
  rfl

theorem c10_witness :
    (([Group3.C, Group3.B, Group3.A] : List Group3).length = Fintype.card Group3 ∧
      tryFrom (Fintype.card Group3) [Group3.C, Group3.B, Group3.A]
        = Except.ok ⟨[Group3.C, Group3.B, Group3.A],
            collectIndexLookup [Group3.C, Group3.B, Group3.A]⟩) ∧
    ((∀ g : Group3,
        (lookupRank ⟨[Group3.C, Group3.B, Group3.A],
          collectIndexLookup [Group3.C, Group3.B, Group3.A]⟩ g).isSome) ∧
      (∀ a b : Group3,
        (compareOpt ⟨[Group3.C, Group3.B, Group3.A],
          collectIndexLookup [Group3.C, Group3.B, Group3.A]⟩ a b).isSome)) :=
  ⟨⟨by decide, rfl⟩,
    c10_compare_never_panics [Group3.C, Group3.B, Group3.A]
      ⟨[Group3.C, Group3.B, Group3.A], collectIndexLookup [Group3.C, Group3.B, Group3.A]⟩
      (by decide) rfl⟩

theorem compareD_ne_gt (o : GroupedOrderingInstance G) (a b : G) :
    compareD o a b ≠ Ordering.gt ↔ rankD o a ≤ rankD o b :=
  Nat.compare_ne_gt

/-- C2: the generic sort helper reorders the vector (a permutation of the
input) so that the labels of any two result positions `i < j` compare
less-or-equal, and it is stable: for every label, the subsequence of items
mapping to that label is unchanged, so items of equal label keep their
relative input order. -/
theorem c2_sort_sorted_and_stable {α : Type} [Fintype G] (groups : List G)
    (o : GroupedOrderingInstance G) (mapTo : α → G) (items : List α)
    (h1 : groups.length = Fintype.card G)
    (h2 : tryFrom (Fintype.card G) groups = Except.ok o) :
    (sortByGroupedOrdering o mapTo items).Perm items ∧
    (sortByGroupedOrdering o mapTo items).Pairwise
      (fun x y => compareD o (mapTo x) (mapTo y) ≠ Ordering.gt) ∧
    (∀ g : G,
      (sortByGroupedOrdering o mapTo items).filter (fun x => decide (mapTo x = g))
        = items.filter (fun x => decide (mapTo x = g))) := by
  simp only [sortByGroupedOrdering]
  set le : α → α → Bool :=
    fun a b => decide (compareD o (mapTo a) (mapTo b) ≠ Ordering.gt) with hle
  have htrans : ∀ a b c : α, le a b → le b c → le a c := by
    intro a b c hab hbc
    simp only [hle, decide_eq_true_eq, compareD_ne_gt] at hab hbc ⊢
    omega
  have htotal : ∀ a b : α, le a b || le b a := by
    intro a b
    rcases Nat.le_total (rankD o (mapTo a)) (rankD o (mapTo b)) with h | h <;>
      simp [hle, compareD_ne_gt, h]
  refine ⟨List.mergeSort_perm items le, ?_, ?_⟩
  · refine (List.sorted_mergeSort htrans htotal items).imp ?_
    intro a b h
    simp only [hle, decide_eq_true_eq] at h
    exact h
  · intro g
    set p : α → Bool := fun x => decide (mapTo x = g) with hp
    have hpair : (items.filter p).Pairwise (fun a b => le a b = true) := by
      apply List.pairwise_of_forall_mem_list
      intro a ha b hb
      have hag : mapTo a = g := by
        have := (List.mem_filter.mp ha).2
        simpa [hp] using this
      have hbg : mapTo b = g := by
        have := (List.mem_filter.mp hb).2
        simpa [hp] using this
      simp only [hle, decide_eq_true_eq, compareD_ne_gt, hag, hbg, Nat.le_refl]
    have hst : List.Sublist (items.filter p) (items.mergeSort le) :=
      List.sublist_mergeSort htrans htotal hpair (List.filter_sublist items)
    have hfeq : (items.filter p).filter p = items.filter p :=
      List.filter_eq_self.mpr fun a ha => (List.mem_filter.mp ha).2
    have hf2 : List.Sublist (items.filter p) ((items.mergeSort le).filter p) := by
      have hmono := hst.filter p
      rw [hfeq] at hmono
      exact hmono
    have hperm : List.Perm ((items.mergeSort le).filter p) (items.filter p) :=
      (List.mergeSort_perm items le).filter p
    exact (hf2.eq_of_length hperm.length_eq.symm).symm

theorem c2_witness :
    (([Group3.A, Group3.B, Group3.C] : List Group3).length = Fintype.card Group3 ∧
      tryFrom (Fintype.card Group3) [Group3.A, Group3.B, Group3.C]
        = Except.ok ⟨[Group3.A, Group3.B, Group3.C],
            collectIndexLookup [Group3.A, Group3.B, Group3.C]⟩) ∧
    ((sortByGroupedOrdering
        ⟨[Group3.A, Group3.B, Group3.C], collectIndexLookup [Group3.A, Group3.B, Group3.C]⟩
        mapU32ToGroup3 [0, 1, 2, 3, 4, 5]).Perm [0, 1, 2, 3, 4, 5] ∧
      (sortByGroupedOrdering
        ⟨[Group3.A, Group3.B, Group3.C], collectIndexLookup [Group3.A, Group3.B, Group3.C]⟩
        mapU32ToGroup3 [0, 1, 2, 3, 4, 5]).Pairwise
        (fun x y =>
          compareD ⟨[Group3.A, Group3.B, Group3.C],
              collectIndexLookup [Group3.A, Group3.B, Group3.C]⟩
            (mapU32ToGroup3 x) (mapU32ToGroup3 y) ≠ Ordering.gt) ∧
      (∀ g : Group3,
        (sortByGroupedOrdering
          ⟨[Group3.A, Group3.B, Group3.C], collectIndexLookup [Group3.A, Group3.B, Group3.C]⟩
          mapU32ToGroup3 [0, 1, 2, 3, 4, 5]).filter (fun x => decide (mapU32ToGroup3 x = g))
          = [0, 1, 2, 3, 4, 5].filter (fun x => decide (mapU32ToGroup3 x = g)))) :=
  ⟨⟨by decide, rfl⟩,
    c2_sort_sorted_and_stable [Group3.A, Group3.B, Group3.C]
      ⟨[Group3.A, Group3.B, Group3.C], collectIndexLookup [Group3.A, Group3.B, Group3.C]⟩
      mapU32ToGroup3 [0, 1, 2, 3, 4, 5] (by decide) rfl⟩

/-- C6: deserializing a sequence of label names whose length differs from
`n` (too few or too many) fails with the wrong-cardinality error —
deserialization requires exactly the full label set. -/
theorem c6_wrong_cardinality_rejected (parseName : String → Option G)
    (n : Nat) (names : List String)
    (h1 : ∀ s ∈ names, (parseName s).isSome) (h2 : names.length ≠ n) :
    deserialize parseName n names
      = Except.error DeserializeError.wrongCardinality := by
  unfold deserialize
  rw [deserializeArray_wrong_length parseName names n h1 h2]

theorem c6_witness :
    ((∀ s ∈ ["a", "b"], (parseGroup3 s).isSome) ∧
      (["a", "b"] : List String).length ≠ 3) ∧
    deserialize parseGroup3 3 ["a", "b"]
      = Except.error DeserializeError.wrongCardinality :=
  ⟨⟨by decide, by decide⟩,
    c6_wrong_cardinality_rejected parseGroup3 3 ["a", "b"] (by decide) (by decide)⟩

/-- C7, refuted as frozen: the claim quantifies over every sequence
containing an unknown name, but a sequence longer than the kind's size
whose unknown name lies beyond the first `n` entries fails with the
cardinality error instead — the deserializer reads exactly `n` elements
and then rejects the trailing entry without ever parsing it.  Concretely,
for the `[A, B, C]` kind, `["a", "b", "c", "d"]` contains the unknown
name `"d"` yet deserializing it yields the wrong-cardinality error, not
the unknown-label one. -/
theorem c7_counterexample :
    (∃ s ∈ ["a", "b", "c", "d"], parseGroup3 s = none) ∧
    deserialize parseGroup3 3 ["a", "b", "c", "d"]
      = Except.error DeserializeError.wrongCardinality ∧
    deserialize parseGroup3 3 ["a", "b", "c", "d"]
      ≠ Except.error DeserializeError.unknownLabel := by
  refine ⟨by decide, rfl, fun h => ?_⟩
  have h2 : Except.error DeserializeError.wrongCardinality
      = deserialize parseGroup3 3 ["a", "b", "c", "d"] := rfl
  rw [← h2] at h
  exact absurd (Except.error.inj h) (by decide)

/-- C7, amended: deserializing a sequence of at most `n` names containing
a name that corresponds to no label of the kind fails with the
unknown-label error and yields no instance; this failure mode exists only
on the deserialization path, since in-code construction uses the closed
label type.  (A longer sequence whose unknown name lies beyond the first
`n` entries instead fails with the cardinality error, per the
counterexample.)  The sequence is read element by element, so under the
length bound the unknown name is reached before any length check fires. -/
theorem c7_unknown_label_rejected (parseName : String → Option G)
    (n : Nat) (names : List String)
    (h1 : names.length ≤ n) (h2 : ∃ s ∈ names, parseName s = none) :
    deserialize parseName n names
      = Except.error DeserializeError.unknownLabel := by
  unfold deserialize
  rw [deserializeArray_unknown parseName names n h1 h2]

theorem c7_witness :
    ((["a", "b", "d"] : List String).length ≤ 3 ∧
      (∃ s ∈ ["a", "b", "d"], parseGroup3 s = none)) ∧
    deserialize parseGroup3 3 ["a", "b", "d"]
      = Except.error DeserializeError.unknownLabel :=
  ⟨⟨by decide, by decide⟩,
    c7_unknown_label_rejected parseGroup3 3 ["a", "b", "d"] (by decide) (by decide)⟩

/-- C9: deserializing the name sequence of a well-formed full permutation
succeeds and yields exactly the instance produced by the validating
in-code constructor on that same permutation. -/
theorem c9_deserialize_equals_literal_construction
    (parseName : String → Option G) (nameOf : G → String)
    (labels : List G) (n : Nat)
    (h0 : ∀ g : G, parseName (nameOf g) = some g)
    (h1 : labels.length = n) (h2 : labels.Nodup) :
    ∃ o : GroupedOrderingInstance G,
      deserialize parseName n (labels.map nameOf) = Except.ok o ∧
      tryFrom n labels = Except.ok o := by
  have hok := tryFrom_ok_of_nodup labels n h1 h2
  refine ⟨⟨labels, collectIndexLookup labels⟩, ?_, hok⟩
  unfold deserialize
  rw [deserializeArray_map_names parseName nameOf h0 labels n h1]
  simp [hok]

theorem c9_witness :
    ((∀ g : Group3, parseGroup3 (group3Name g) = some g) ∧
      ([Group3.B, Group3.A, Group3.C] : List Group3).length = 3 ∧
      ([Group3.B, Group3.A, Group3.C] : List Group3).Nodup) ∧
    (∃ o : GroupedOrderingInstance Group3,
      deserialize parseGroup3 3 ([Group3.B, Group3.A, Group3.C].map group3Name)
        = Except.ok o ∧
      tryFrom 3 [Group3.B, Group3.A, Group3.C] = Except.ok o) :=
  ⟨⟨by decide, by decide, by decide⟩,
    c9_deserialize_equals_literal_construction parseGroup3 group3Name
      [Group3.B, Group3.A, Group3.C] 3 (by decide) (by decide) (by decide)⟩

/-- C4: the query surface exposes indexing by label (to the integer rank,
read from the rank table) and indexing by integer rank (to the label at
that rank, read from the stored permutation): for an instance of the
`[A, B, C]` kind constructed from `[C, A, B]`, the rank of `A` is `1` and
the label at rank `0` is `C`. -/
theorem c4_query_surface_indexing :
    ∃ o : GroupedOrderingInstance Group3,
      tryFrom 3 [Group3.C, Group3.A, Group3.B] = Except.ok o ∧
      indexByGroup o Group3.A = 1 ∧
      indexByRank o 0 = some Group3.C :=
  ⟨⟨[Group3.C, Group3.A, Group3.B], collectIndexLookup [Group3.C, Group3.A, Group3.B]⟩,
    rfl, rfl, rfl⟩

end GroupedOrderingModel
